import Mathlib

/-!
# Student CRUD service (`main.go`)

A shallow embedding of the five HTTP handlers of `main.go`
(`getAllStudents`, `getStudentByID`, `addStudent`, `updateStudent`,
`deleteStudent`) together with the parts of their collaborators the handlers
observe: `strconv.Atoi`, the JSON binding of a request body to a `Student`,
the five SQL statements over table `mst_student`, and the JSON rendering of
the value handed to `c.JSON`.

The handlers are pure functions from the storage state and the request to a
response and the storage state afterwards; every storage primitive records
the statement it issues, so "no storage access" is a statement about that
record.
-/

namespace StudentApi

/-! ## Library values the source uses -/

/-- What the handlers need of Go's `time.Time`: its zero value, the RFC 3339
decoding `UnmarshalJSON` applies to the content of a JSON string, and the text
`MarshalJSON` produces. The type is a library type, so it is a parameter. -/
class TimeLib (Time : Type) where
  zero : Time
  unmarshalText : String → Except String Time
  marshalText : Time → String

/-- The struct `Student` of `main.go`, field for field. `Id` is a Go `int`
(64 bit); values bound from a request are within that range. -/
structure Student (Time : Type) where
  Id : Int
  Name : String
  Email : String
  Address : String
  BirthDate : Time
  Gender : String
deriving DecidableEq, Repr

/-- The value of `var s Student`: every field at its zero value. -/
def Student.zero {Time : Type} [TimeLib Time] : Student Time :=
  { Id := 0, Name := "", Email := "", Address := "", BirthDate := TimeLib.zero, Gender := "" }

/-- A Go slice of students: `none` is the nil slice (`var students []Student`),
`some xs` a non-nil slice with elements `xs`. -/
abbrev Slice (α : Type) := Option (List α)

/-- Go's `append(xs, x)`: appending to the nil slice allocates. -/
def Slice.append {α : Type} (xs : Slice α) (x : α) : Slice α :=
  match xs with
  | none => some [x]
  | some l => some (l ++ [x])

/-! ## `strconv.Atoi` -/

/-- Value of an ASCII decimal digit. -/
def digitVal (c : Char) : Option Nat :=
  if '0' ≤ c ∧ c ≤ '9' then some (c.toNat - '0'.toNat) else none

/-- The digit loop of `Atoi` / `ParseUint`: `n = n*10 + digit`, failing at the
first byte that is not a digit. -/
def parseDigits : List Char → Nat → Option Nat
  | [], acc => some acc
  | c :: cs, acc =>
    match digitVal c with
    | none => none
    | some d => parseDigits cs (acc * 10 + d)

/-- The function `strconv.Atoi` on a 64-bit platform: an optional sign, then
at least one decimal digit, the value within `[-2^63, 2^63 - 1]`; anything
else is an error (`none`; the handler discards the error value). -/
def Atoi (s : String) : Option Int :=
  match s.toList with
  | [] => none
  | c :: cs =>
    let neg := decide (c = '-')
    let ds := if c = '-' ∨ c = '+' then cs else c :: cs
    match ds with
    | [] => none
    | _ :: _ =>
      match parseDigits ds 0 with
      | none => none
      | some n =>
        if neg then (if n ≤ 2 ^ 63 then some (-(n : Int)) else none)
        else (if n < 2 ^ 63 then some (n : Int) else none)

/-! ## JSON values and the binding of a request body -/

/-- A JSON value. `int n` is a number literal without fraction or exponent,
`frac lit` any other number literal (kept as text). -/
inductive JVal where
  | null
  | bool (b : Bool)
  | int (n : Int)
  | frac (lit : String)
  | str (s : String)
  | arr (items : List JVal)
  | obj (members : List (String × JVal))

/-- The name `encoding/json` uses for a value's kind in a type error. -/
def JVal.kind : JVal → String
  | .null => "null"
  | .bool _ => "bool"
  | .int _ => "number"
  | .frac _ => "number"
  | .str _ => "string"
  | .arr _ => "array"
  | .obj _ => "object"

/-- A request body as the JSON decoder sees it: either it is not the start of
a JSON value (the decoder's syntax error, `EOF` for an empty body), or it
holds a JSON value. -/
inductive ReqBody where
  | malformed (err : String)
  | json (v : JVal)

/-- The six fields of `Student`. -/
inductive Field where
  | id | name | email | address | birth_date | gender
deriving DecidableEq, Repr

/-- The `json:"..."` tag of each field of `Student`. -/
def Field.key : Field → String
  | .id => "id"
  | .name => "name"
  | .email => "email"
  | .address => "address"
  | .birth_date => "birth_date"
  | .gender => "gender"

/-- The Go type of each field, as printed in a type error. -/
def Field.goType : Field → String
  | .id => "int"
  | .birth_date => "time.Time"
  | _ => "string"

/-- All fields in declaration order. -/
def Field.all : List Field :=
  [.id, .name, .email, .address, .birth_date, .gender]

/-- Case folding of `encoding/json` for object keys: the smallest rune of the
simple-fold orbit. On the orbits that meet ASCII this is the upper-case
letter, with U+017F (long s) and U+212A (Kelvin sign) folding to `S` and `K`. -/
def foldRune (c : Char) : Char :=
  if 'a' ≤ c ∧ c ≤ 'z' then Char.ofNat (c.toNat - 32)
  else if c.toNat = 0x17F then 'S'
  else if c.toNat = 0x212A then 'K'
  else c

/-- Folded form of an object key. -/
def foldName (s : String) : List Char := s.toList.map foldRune

/-- Field lookup of the decoder: an exact match of the tag first, otherwise a
case-insensitive one; unknown keys match no field. -/
def findField (key : String) : Option Field :=
  match Field.all.find? (fun f => f.key = key) with
  | some f => some f
  | none => Field.all.find? (fun f => foldName f.key = foldName key)

/-- The type error `encoding/json` records for a value (described by `what`)
it cannot store in a field. -/
def typeError (what : String) (f : Field) : String :=
  "json: cannot unmarshal " ++ what ++ " into Go struct field Student." ++ f.key ++
    " of type " ++ f.goType

/-- Decoder state while reading an object into `s`: the struct so far and the
first type error saved (the decoder keeps going after a type error and reports
it at the end). -/
structure DecState (Time : Type) where
  s : Student Time
  saved : Option String

/-- Record a type error unless one is already saved (`saveError`). -/
def DecState.save {Time : Type} (st : DecState Time) (e : String) : DecState Time :=
  { st with saved := st.saved.orElse (fun _ => some e) }

/-- Store a string field. -/
def setText {Time : Type} (f : Field) (x : String) (s : Student Time) : Student Time :=
  match f with
  | .name => { s with Name := x }
  | .email => { s with Email := x }
  | .address => { s with Address := x }
  | .gender => { s with Gender := x }
  | _ => s

/-- Decode one member value into field `f`. JSON `null` leaves the field as it
is. `id` takes an integer literal within the range of `int`; the text fields
take a string; `birth_date` goes through `Time.UnmarshalJSON`, whose error
aborts the decoding at once (`Except.error`), while a type error is saved. -/
def decodeField {Time : Type} [TimeLib Time] (f : Field) (v : JVal) (st : DecState Time) :
    Except String (DecState Time) :=
  match f, v with
  | _, .null => .ok st
  | .id, .int n =>
    if -(2 : Int) ^ 63 ≤ n ∧ n < (2 : Int) ^ 63 then .ok { st with s := { st.s with Id := n } }
    else .ok (st.save (typeError ("number " ++ toString n) f))
  | .id, .frac lit => .ok (st.save (typeError ("number " ++ lit) f))
  | .id, _ => .ok (st.save (typeError v.kind f))
  | .birth_date, .str x =>
    match (TimeLib.unmarshalText x : Except String Time) with
    | .ok t => .ok { st with s := { st.s with BirthDate := t } }
    | .error e => .error e
  | .birth_date, _ => .error "Time.UnmarshalJSON: input is not a JSON string"
  | _, .str x => .ok { st with s := setText f x st.s }
  | _, _ => .ok (st.save (typeError v.kind f))

/-- The member loop of the decoder: members are read in order, a later
duplicate key overwrites an earlier one, unknown keys are skipped. -/
def decodeMembers {Time : Type} [TimeLib Time] :
    List (String × JVal) → DecState Time → Except String (DecState Time)
  | [], st => .ok st
  | (k, v) :: rest, st =>
    match findField k with
    | none => decodeMembers rest st
    | some f =>
      match decodeField f v st with
      | .error e => .error e
      | .ok st1 => decodeMembers rest st1

/-- The call `c.ShouldBindJSON(&s)` on a fresh `var s Student`: decode the
first JSON value of the body into `s`, then validate `s` against its
`binding` tags. `Student` carries no `binding` tag, so validation accepts
every decoded struct. A top-level `null` stores nothing; a top-level value
that is neither `null` nor an object is a type error. -/
def ShouldBindJSON {Time : Type} [TimeLib Time] (body : ReqBody) : Except String (Student Time) :=
  match body with
  | .malformed e => .error e
  | .json .null => .ok Student.zero
  | .json (.obj ms) =>
    match decodeMembers ms { s := Student.zero, saved := none } with
    | .error e => .error e
    | .ok st =>
      match st.saved with
      | some e => .error e
      | none => .ok st.s
  | .json v => .error ("json: cannot unmarshal " ++ v.kind ++ " into Go value of type main.Student")

/-! ## Storage: table `mst_student` and the five statements -/

/-- A stored row of `mst_student`, columns in table order. A column may hold
SQL `NULL` (`none`): the table is created outside the service. -/
structure Row (Time : Type) where
  id : Option Int
  name : Option String
  email : Option String
  address : Option String
  birth_date : Option Time
  gender : Option String
deriving DecidableEq, Repr

/-- The row an `INSERT` of the six fields of `s` writes: the values as bound,
no column default, trigger or coercion applied by the storage. -/
def Row.ofStudent {Time : Type} (s : Student Time) : Row Time :=
  { id := some s.Id, name := some s.Name, email := some s.Email, address := some s.Address,
    birth_date := some s.BirthDate, gender := some s.Gender }

/-- The error of `Scan` for column `i`, wrapping what the conversion reports. -/
def scanError (i : Nat) (col : String) (detail : String) : String :=
  "sql: Scan error on column index " ++ toString i ++ ", name \"" ++ col ++ "\": " ++ detail

/-- The conversion error for a `NULL` read into an `int` or `string`. -/
def nullInto (goKind : String) : String :=
  "converting NULL to " ++ goKind ++ " is unsupported"

/-- The conversion error for a `NULL` read into a `time.Time`. -/
def nullIntoTime : String :=
  "unsupported Scan, storing driver.Value type <nil> into type *time.Time"

/-- The call `Scan(&s.Id, &s.Name, &s.Email, &s.Address, &s.BirthDate, &s.Gender)`
on one row: columns are converted left to right, a `NULL` cannot be stored in
a non-pointer destination. -/
def Scan {Time : Type} (r : Row Time) : Except String (Student Time) :=
  match r.id with
  | none => .error (scanError 0 "id" (nullInto "int"))
  | some i =>
  match r.name with
  | none => .error (scanError 1 "name" (nullInto "string"))
  | some n =>
  match r.email with
  | none => .error (scanError 2 "email" (nullInto "string"))
  | some e =>
  match r.address with
  | none => .error (scanError 3 "address" (nullInto "string"))
  | some a =>
  match r.birth_date with
  | none => .error (scanError 4 "birth_date" nullIntoTime)
  | some b =>
  match r.gender with
  | none => .error (scanError 5 "gender" (nullInto "string"))
  | some g => .ok { Id := i, Name := n, Email := e, Address := a, BirthDate := b, Gender := g }

/-- The five statements of `main.go` with the arguments the handlers bind.
`selectById` and `insert` bind the id as a Go `int`; `update` and `delete`
bind the raw path segment, a string. -/
inductive Stmt (Time : Type) where
  /-- Statement `SELECT * FROM mst_student`. -/
  | selectAll
  /-- Statement `SELECT * FROM mst_student WHERE id = $1`. -/
  | selectById (id : Int)
  /-- Statement `INSERT INTO mst_student (id, name, email, address, birth_date, gender)
  VALUES ($1, $2, $3, $4, $5, $6)` -/
  | insert (id : Int) (name email address : String) (birth_date : Time) (gender : String)
  /-- Statement `UPDATE mst_student SET name = $2, email = $3, address = $4,
  birth_date = $5, gender = $6 WHERE id = $1` -/
  | update (id : String) (name email address : String) (birth_date : Time) (gender : String)
  /-- Statement `DELETE FROM mst_student WHERE id = $1`. -/
  | delete (id : String)
deriving DecidableEq, Repr

/-- The storage backend as far as the statements depend on it and the
repository does not fix it: how the id column reads a text parameter as an
integer (its error is the statement's error), and whether the table has a
uniqueness constraint on `id`. The id column is taken wide enough for every
Go `int`. -/
structure Engine where
  intIn : String → Except String Int
  pkey : Bool

/-- The process-wide handle `db` with what is behind it: the rows of
`mst_student` in storage iteration order, a fault that makes every statement
fail with its text (`none` for a healthy connection), and the record of the
statements issued. -/
structure DB (Time : Type) where
  rows : List (Row Time)
  fault : Option String
  calls : List (Stmt Time)

/-- The store answers every statement: no connection fault is pending. -/
def DB.healthy {Time : Type} (db : DB Time) : Prop := db.fault = none

instance {Time : Type} (db : DB Time) : Decidable db.healthy :=
  inferInstanceAs (Decidable (db.fault = none))

/-- The error of an `INSERT` that violates the uniqueness constraint on `id`. -/
def duplicateKey : String :=
  "pq: duplicate key value violates unique constraint \"mst_student_pkey\""

/-- The `SET` clause of the `UPDATE`: the five non-id columns are overwritten,
`id` is kept. -/
def Row.assign {Time : Type} (r : Row Time) (name email address : String) (birth_date : Time)
    (gender : String) : Row Time :=
  { r with name := some name, email := some email, address := some address,
           birth_date := some birth_date, gender := some gender }

/-- Effect of one statement on the rows of a healthy store: the result rows
(empty for `INSERT`, `UPDATE`, `DELETE`) and the rows afterwards, or the
statement's error. A failed statement changes nothing. The result set of a
`SELECT` is taken as delivered whole, and an inserted row is placed last. -/
def Stmt.eval {Time : Type} (pg : Engine) (rows : List (Row Time)) :
    Stmt Time → Except String (List (Row Time) × List (Row Time))
  | .selectAll => .ok (rows, rows)
  | .selectById k => .ok (rows.filter (fun r => r.id = some k), rows)
  | .insert k n e a b g =>
    if pg.pkey ∧ (rows.any (fun r => r.id = some k)) then .error duplicateKey
    else .ok ([], rows ++ [Row.ofStudent { Id := k, Name := n, Email := e, Address := a,
                                            BirthDate := b, Gender := g }])
  | .update p n e a b g =>
    match pg.intIn p with
    | .error err => .error err
    | .ok k => .ok ([], rows.map (fun r => if r.id = some k then r.assign n e a b g else r))
  | .delete p =>
    match pg.intIn p with
    | .error err => .error err
    | .ok k => .ok ([], rows.filter (fun r => ¬ r.id = some k))

/-- The store with statement `q` added to the record of issued statements. -/
def DB.record {Time : Type} (db : DB Time) (q : Stmt Time) : DB Time :=
  { db with calls := db.calls ++ [q] }

/-- The store with its table replaced by `rows`. -/
def DB.withRows {Time : Type} (db : DB Time) (rows : List (Row Time)) : DB Time :=
  { db with rows := rows }

/-- Send one statement through the handle: it is recorded, then it fails with
the connection fault if there is one, and is evaluated otherwise. -/
def DB.run {Time : Type} (pg : Engine) (db : DB Time) (q : Stmt Time) :
    Except String (List (Row Time)) × DB Time :=
  match db.fault with
  | some e => (.error e, db.record q)
  | none =>
    match q.eval pg db.rows with
    | .error e => (.error e, db.record q)
    | .ok (out, rows1) => (.ok out, (db.record q).withRows rows1)

/-- The call `db.Query(...)`: the result rows or the error. -/
def DB.Query {Time : Type} (pg : Engine) (db : DB Time) (q : Stmt Time) :
    Except String (List (Row Time)) × DB Time :=
  db.run pg q

/-- The call `db.Exec(...)`: only the error is looked at. -/
def DB.Exec {Time : Type} (pg : Engine) (db : DB Time) (q : Stmt Time) :
    Except String Unit × DB Time :=
  match db.run pg q with
  | (.error e, db1) => (.error e, db1)
  | (.ok _, db1) => (.ok (), db1)

/-- The error `sql.ErrNoRows`. -/
def errNoRows : String := "sql: no rows in result set"

/-- The call `db.QueryRow(...).Scan(...)`: the query's error if it failed,
`sql.ErrNoRows` for an empty result, otherwise the scan of the first row. -/
def DB.QueryRowScan {Time : Type} (pg : Engine) (db : DB Time) (q : Stmt Time) :
    Except String (Student Time) × DB Time :=
  match db.run pg q with
  | (.error e, db1) => (.error e, db1)
  | (.ok [], db1) => (.error errNoRows, db1)
  | (.ok (r :: _), db1) => (Scan r, db1)

/-! ## Responses -/

/-- The status codes of `net/http` the handlers use. -/
def StatusOK : Nat := 200
/-- Status `http.StatusCreated`. -/
def StatusCreated : Nat := 201
/-- Status `http.StatusNoContent`. -/
def StatusNoContent : Nat := 204
/-- Status `http.StatusBadRequest`. -/
def StatusBadRequest : Nat := 400
/-- Status `http.StatusNotFound`. -/
def StatusNotFound : Nat := 404
/-- Status `http.StatusInternalServerError`. -/
def StatusInternalServerError : Nat := 500

/-- The Go value a handler hands to the response: nothing (`c.Status`),
`gin.H{"error": msg}`, one `Student`, or the slice `students`. -/
inductive Payload (Time : Type) where
  | empty
  | H (msg : String)
  | student (s : Student Time)
  | students (xs : Slice (Student Time))
deriving DecidableEq, Repr

/-- A response: status code and the value written as its body. -/
structure Response (Time : Type) where
  status : Nat
  body : Payload Time
deriving DecidableEq, Repr

/-- The call `c.JSON(code, obj)`. -/
def cJSON {Time : Type} (code : Nat) (obj : Payload Time) : Response Time :=
  { status := code, body := obj }

/-- The call `c.Status(code)`: no body is written. -/
def cStatus {Time : Type} (code : Nat) : Response Time :=
  { status := code, body := .empty }

/-- JSON encoding of a `Student` under its `json` tags. -/
def Student.toJSON {Time : Type} [TimeLib Time] (s : Student Time) : JVal :=
  .obj [("id", .int s.Id), ("name", .str s.Name), ("email", .str s.Email),
        ("address", .str s.Address), ("birth_date", .str (TimeLib.marshalText s.BirthDate)),
        ("gender", .str s.Gender)]

/-- The body `encoding/json` writes for a payload (`none`: no body). A nil
slice is encoded as `null`, a non-nil slice as an array. -/
def Payload.toJSON {Time : Type} [TimeLib Time] : Payload Time → Option JVal
  | .empty => none
  | .H msg => some (.obj [("error", .str msg)])
  | .student s => some s.toJSON
  | .students none => some .null
  | .students (some xs) => some (.arr (xs.map Student.toJSON))

/-! ## The handlers -/

/-- The loop `for rows.Next() { ... rows.Scan ...; students = append(students, s) }`
of `getAllStudents`, started with the slice so far; it stops at the first
scan error. -/
def scanRows {Time : Type} : List (Row Time) → Slice (Student Time) →
    Except String (Slice (Student Time))
  | [], students => .ok students
  | r :: rest, students =>
    match Scan r with
    | .error e => .error e
    | .ok s => scanRows rest (students.append s)

/-- Handler `getAllStudents` (`GET /students`). -/
def getAllStudents {Time : Type} (pg : Engine) (db : DB Time) : Response Time × DB Time :=
  match db.Query pg .selectAll with
  | (.error e, db1) => (cJSON StatusInternalServerError (.H e), db1)
  | (.ok rows, db1) =>
    match scanRows rows none with
    | .error e => (cJSON StatusInternalServerError (.H e), db1)
    | .ok students => (cJSON StatusOK (.students students), db1)

/-- Handler `getStudentByID` (`GET /students/:id`); `idStr` is `c.Param("id")`. -/
def getStudentByID {Time : Type} (pg : Engine) (db : DB Time) (idStr : String) :
    Response Time × DB Time :=
  match Atoi idStr with
  | none => (cJSON StatusBadRequest (.H "Invalid ID"), db)
  | some id =>
    match db.QueryRowScan pg (.selectById id) with
    | (.error _, db1) => (cJSON StatusNotFound (.H "Student not found"), db1)
    | (.ok s, db1) => (cJSON StatusOK (.student s), db1)

/-- Handler `addStudent` (`POST /students`). -/
def addStudent {Time : Type} [TimeLib Time] (pg : Engine) (db : DB Time) (body : ReqBody) :
    Response Time × DB Time :=
  match ShouldBindJSON body with
  | .error e => (cJSON StatusBadRequest (.H e), db)
  | .ok s =>
    match db.Exec pg (.insert s.Id s.Name s.Email s.Address s.BirthDate s.Gender) with
    | (.error e, db1) => (cJSON StatusInternalServerError (.H e), db1)
    | (.ok _, db1) => (cJSON StatusCreated (.student s), db1)

/-- Handler `updateStudent` (`PUT /students/:id`); `id` is `c.Param("id")`,
bound to the statement as it is. -/
def updateStudent {Time : Type} [TimeLib Time] (pg : Engine) (db : DB Time) (id : String)
    (body : ReqBody) : Response Time × DB Time :=
  match ShouldBindJSON body with
  | .error e => (cJSON StatusBadRequest (.H e), db)
  | .ok s =>
    match db.Exec pg (.update id s.Name s.Email s.Address s.BirthDate s.Gender) with
    | (.error e, db1) => (cJSON StatusInternalServerError (.H e), db1)
    | (.ok _, db1) => (cJSON StatusOK (.student s), db1)

/-- Handler `deleteStudent` (`DELETE /students/:id`). -/
def deleteStudent {Time : Type} (pg : Engine) (db : DB Time) (id : String) :
    Response Time × DB Time :=
  match db.Exec pg (.delete id) with
  | (.error e, db1) => (cJSON StatusInternalServerError (.H e), db1)
  | (.ok _, db1) => (cStatus StatusNoContent, db1)

/-- The responses of `n` successive `DELETE` requests for the same path id,
and the store after the last. -/
def deleteRepeat {Time : Type} (pg : Engine) (id : String) :
    Nat → DB Time → List (Response Time) × DB Time
  | 0, db => ([], db)
  | n + 1, db =>
    let first := deleteStudent pg db id
    let later := deleteRepeat pg id n first.2
    (first.1 :: later.1, later.2)

/-! ## Routing -/

/-- The five routes registered in `main`, each with the request data its
handler reads. -/
inductive Request where
  /-- Route `GET /students`. -/
  | list
  /-- Route `GET /students/:id`. -/
  | get (id : String)
  /-- Route `POST /students`. -/
  | add (body : ReqBody)
  /-- Route `PUT /students/:id`. -/
  | update (id : String) (body : ReqBody)
  /-- Route `DELETE /students/:id`. -/
  | delete (id : String)

/-- The router: each route runs its handler. -/
def handle {Time : Type} [TimeLib Time] (pg : Engine) (db : DB Time) :
    Request → Response Time × DB Time
  | .list => getAllStudents pg db
  | .get id => getStudentByID pg db id
  | .add body => addStudent pg db body
  | .update id body => updateStudent pg db id body
  | .delete id => deleteStudent pg db id

/-- The statement a request makes its handler issue, if the handler gets as
far as the storage: none after a failed `Atoi` or a failed binding. -/
def storageCall {Time : Type} [TimeLib Time] : Request → Option (Stmt Time)
  | .list => some .selectAll
  | .get id => (Atoi id).map .selectById
  | .add body =>
    match (ShouldBindJSON body : Except String (Student Time)) with
    | .error _ => none
    | .ok s => some (.insert s.Id s.Name s.Email s.Address s.BirthDate s.Gender)
  | .update id body =>
    match (ShouldBindJSON body : Except String (Student Time)) with
    | .error _ => none
    | .ok s => some (.update id s.Name s.Email s.Address s.BirthDate s.Gender)
  | .delete id => some (.delete id)

/-! ## Notions the properties are stated with -/

/-- Decimal digits of a natural number, most significant first. -/
def natDigits (n : Nat) : List Char :=
  if n < 10 then [Char.ofNat (48 + n)]
  else natDigits (n / 10) ++ [Char.ofNat (48 + n % 10)]
termination_by n
decreasing_by omega

/-- The decimal text of an integer, as `strconv.Itoa` prints it: a minus sign
for a negative number, then the digits without leading zeros. -/
def decimalText (k : Int) : String :=
  if k < 0 then String.mk ('-' :: natDigits k.natAbs) else String.mk (natDigits k.natAbs)

/-- Field `f` of `s` holds the zero value of its type. -/
def Student.zeroAt {Time : Type} [TimeLib Time] (f : Field) (s : Student Time) : Prop :=
  match f with
  | .id => s.Id = 0
  | .name => s.Name = ""
  | .email => s.Email = ""
  | .address => s.Address = ""
  | .birth_date => s.BirthDate = TimeLib.zero
  | .gender => s.Gender = ""

/-- The row a full replace by `s` leaves where a row of id `k` was: id `k`,
the five other columns from `s`. -/
def Row.replaced {Time : Type} (k : Int) (s : Student Time) : Row Time :=
  { id := some k, name := some s.Name, email := some s.Email, address := some s.Address,
    birth_date := some s.BirthDate, gender := some s.Gender }

/-! ## A sample instantiation -/

/-- A sample time library for concrete runs: a time value is kept as the text
it was decoded from; texts shorter than the shortest RFC 3339 date-time are
rejected. -/
structure Stamp where
  text : String
deriving DecidableEq, Repr

instance : TimeLib Stamp where
  zero := ⟨"0001-01-01T00:00:00Z"⟩
  unmarshalText x :=
    if 20 ≤ x.length then .ok ⟨x⟩
    else .error ("parsing time \"" ++ x ++ "\" as \"2006-01-02T15:04:05Z07:00\"")
  marshalText t := t.text

/-- A sample backend: the id column reads a text parameter the way `Atoi`
does, and `id` is the primary key. -/
def samplePg : Engine :=
  { intIn := fun p =>
      match Atoi p with
      | some k => .ok k
      | none => .error ("pq: invalid input syntax for type integer: \"" ++ p ++ "\"")
    pkey := true }

/-- The request body of the scenario in the specification. -/
def annBody : ReqBody :=
  .json (.obj [("id", .int 1), ("name", .str "Ann"), ("email", .str "a@x.com"),
               ("address", .str "1 Main St"), ("birth_date", .str "2000-01-01T00:00:00Z"),
               ("gender", .str "F")])

/-- The record the scenario's body binds to. -/
def ann : Student Stamp :=
  { Id := 1, Name := "Ann", Email := "a@x.com", Address := "1 Main St",
    BirthDate := ⟨"2000-01-01T00:00:00Z"⟩, Gender := "F" }

/-- A healthy store with an empty table. -/
def emptyDb : DB Stamp := { rows := [], fault := none, calls := [] }

/-- A second record, with id 2. -/
def bea : Student Stamp :=
  { Id := 2, Name := "Bea", Email := "b@x.com", Address := "2 Side St",
    BirthDate := ⟨"1999-12-31T00:00:00Z"⟩, Gender := "F" }

/-- A healthy store holding the records of ids 1 and 2. -/
def twoDb : DB Stamp :=
  { rows := [Row.ofStudent ann, Row.ofStudent bea], fault := none, calls := [] }

/-- The store of ids 1 and 2 behind a lost connection. -/
def downDb : DB Stamp :=
  { rows := [Row.ofStudent ann, Row.ofStudent bea], fault := some "driver: bad connection",
    calls := [] }

/-- A body whose own id (9) differs from every stored id. -/
def annaBody : ReqBody :=
  .json (.obj [("id", .int 9), ("name", .str "Anna"), ("email", .str "anna@x.com"),
               ("address", .str "3 High St"), ("birth_date", .str "2000-01-02T00:00:00Z"),
               ("gender", .str "F")])

/-- The record `annaBody` binds to. -/
def anna : Student Stamp :=
  { Id := 9, Name := "Anna", Email := "anna@x.com", Address := "3 High St",
    BirthDate := ⟨"2000-01-02T00:00:00Z"⟩, Gender := "F" }

/-- A body that names only two of the six fields. -/
def partialBody : ReqBody :=
  .json (.obj [("id", .int 7), ("name", .str "Bob")])

/-- The record `partialBody` binds to: the four missing fields at zero. -/
def bob : Student Stamp :=
  { Id := 7, Name := "Bob", Email := "", Address := "", BirthDate := TimeLib.zero, Gender := "" }

/-! ## Basic facts about the storage primitives -/

section lemmas
variable {Time : Type}

theorem run_of_fault (pg : Engine) (db : DB Time) (q : Stmt Time) (e : String)
    (h : db.fault = some e) :
    db.run pg q = (.error e, db.record q) := by
  simp [DB.run, h]

theorem run_of_healthy (pg : Engine) (db : DB Time) (q : Stmt Time) (h : db.healthy) :
    db.run pg q =
      match q.eval pg db.rows with
      | .error e => (.error e, db.record q)
      | .ok (out, rows1) => (.ok out, (db.record q).withRows rows1) := by
  have h1 : db.fault = none := h
  simp only [DB.run, h1]

@[simp]
theorem healthy_record (db : DB Time) (q : Stmt Time) :
    (db.record q).healthy ↔ db.healthy := Iff.rfl

@[simp]
theorem healthy_withRows (db : DB Time) (rows : List (Row Time)) :
    (db.withRows rows).healthy ↔ db.healthy := Iff.rfl

@[simp]
theorem rows_record (db : DB Time) (q : Stmt Time) : (db.record q).rows = db.rows := rfl

@[simp]
theorem rows_withRows (db : DB Time) (rows : List (Row Time)) :
    (db.withRows rows).rows = rows := rfl

@[simp]
theorem calls_record (db : DB Time) (q : Stmt Time) :
    (db.record q).calls = db.calls ++ [q] := rfl

@[simp]
theorem calls_withRows (db : DB Time) (rows : List (Row Time)) :
    (db.withRows rows).calls = db.calls := rfl

theorem filter_id_eq_nil (rows : List (Row Time)) (k : Int)
    (h : ∀ r ∈ rows, r.id ≠ some k) :
    rows.filter (fun r => r.id = some k) = [] := by
  rw [List.filter_eq_nil_iff]
  intro r hr
  simpa using h r hr

theorem Scan_ofStudent (s : Student Time) : Scan (Row.ofStudent s) = .ok s := by
  cases s; rfl

/-- On a healthy store without a row of id `s.Id`, `addStudent` with a body
bound to `s` appends the row of `s`. -/
theorem addStudent_fresh [TimeLib Time] (pg : Engine) (db : DB Time)
    (body : ReqBody) (s : Student Time)
    (hbody : ShouldBindJSON body = .ok s) (hh : db.healthy)
    (hfresh : ∀ r ∈ db.rows, r.id ≠ some s.Id) :
    addStudent pg db body =
      (cJSON StatusCreated (.student s),
        (db.record (.insert s.Id s.Name s.Email s.Address s.BirthDate s.Gender)).withRows
          (db.rows ++ [Row.ofStudent s])) := by
  have hany : (db.rows.any fun r => decide (r.id = some s.Id)) = false := by
    rw [List.any_eq_false]
    intro r hr
    simpa using hfresh r hr
  simp [addStudent, hbody, DB.Exec, run_of_healthy pg db _ hh, Stmt.eval, hany]

/-- On a healthy store `getStudentByID` answers from the first row with the
parsed id. -/
theorem getStudentByID_healthy (pg : Engine) (db : DB Time) (idStr : String) (k : Int)
    (hid : Atoi idStr = some k) (hh : db.healthy) :
    (getStudentByID pg db idStr).1 =
      match db.rows.filter (fun r => r.id = some k) with
      | [] => cJSON StatusNotFound (.H "Student not found")
      | r :: _ =>
        match Scan r with
        | .error _ => cJSON StatusNotFound (.H "Student not found")
        | .ok s => cJSON StatusOK (.student s) := by
  simp only [getStudentByID, hid, DB.QueryRowScan, run_of_healthy pg db _ hh, Stmt.eval]
  cases db.rows.filter (fun r => r.id = some k) with
  | nil => rfl
  | cons r rest =>
    simp only []
    cases Scan r <;> rfl

end lemmas

/-! ## Facts about the binding -/

section binding
variable {Time : Type} [TimeLib Time]

/-- Decoding a member into field `g` leaves every other field as it was. -/
theorem decodeField_zeroAt (f g : Field) (v : JVal) (st st1 : DecState Time)
    (hne : g ≠ f) (h : decodeField g v st = .ok st1) (hz : st.s.zeroAt f) :
    st1.s.zeroAt f := by
  cases g <;> cases v <;> cases f <;>
    simp only [decodeField, ne_eq, not_true_eq_false, reduceCtorEq, not_false_eq_true] at hne h <;>
    first
    | contradiction
    | (injection h with h; subst h; exact hz)
    | (split at h <;> first | (injection h with h; subst h; exact hz) | cases h)

/-- A field no member of the object names is left as it was. -/
theorem decodeMembers_zeroAt (f : Field) (ms : List (String × JVal)) :
    ∀ (st st1 : DecState Time), (∀ m ∈ ms, findField m.1 ≠ some f) →
      decodeMembers ms st = .ok st1 → st.s.zeroAt f → st1.s.zeroAt f := by
  induction ms with
  | nil =>
    intro st st1 _ h hz
    simp only [decodeMembers] at h
    injection h with h
    subst h
    exact hz
  | cons m rest ih =>
    intro st st1 hms h hz
    obtain ⟨k, v⟩ := m
    have hk : findField k ≠ some f := hms (k, v) (List.mem_cons_self _ _)
    have hrest : ∀ m ∈ rest, findField m.1 ≠ some f :=
      fun m hm => hms m (List.mem_cons_of_mem _ hm)
    simp only [decodeMembers] at h
    cases hf : findField k with
    | none =>
      rw [hf] at h
      dsimp only at h
      exact ih st st1 hrest h hz
    | some g =>
      rw [hf] at h
      dsimp only at h
      have hne : g ≠ f := fun hgf => hk (by rw [hf, hgf])
      cases hd : decodeField g v st with
      | error e => rw [hd] at h; cases h
      | ok st2 =>
        rw [hd] at h
        dsimp only at h
        exact ih st2 st1 hrest h (decodeField_zeroAt f g v st st2 hne hd hz)

theorem zero_zeroAt (f : Field) : (Student.zero : Student Time).zeroAt f := by
  cases f <;> rfl

/-- The id a field decoding leaves is within the range of `int`. -/
theorem decodeField_range (g : Field) (v : JVal) (st st1 : DecState Time)
    (h : decodeField g v st = .ok st1)
    (hz : -(2 : Int) ^ 63 ≤ st.s.Id ∧ st.s.Id < (2 : Int) ^ 63) :
    -(2 : Int) ^ 63 ≤ st1.s.Id ∧ st1.s.Id < (2 : Int) ^ 63 := by
  cases g <;> cases v <;>
    simp only [decodeField] at h <;>
    first
    | (cases h; done)
    | (injection h with h; subst h; exact hz)
    | (split at h <;> first
        | (injection h with h; subst h; exact hz)
        | (injection h with h; subst h; assumption)
        | cases h)

theorem decodeMembers_range (ms : List (String × JVal)) :
    ∀ (st st1 : DecState Time), decodeMembers ms st = .ok st1 →
      (-(2 : Int) ^ 63 ≤ st.s.Id ∧ st.s.Id < (2 : Int) ^ 63) →
      -(2 : Int) ^ 63 ≤ st1.s.Id ∧ st1.s.Id < (2 : Int) ^ 63 := by
  induction ms with
  | nil =>
    intro st st1 h hz
    simp only [decodeMembers] at h
    injection h with h
    subst h
    exact hz
  | cons m rest ih =>
    intro st st1 h hz
    obtain ⟨k, v⟩ := m
    simp only [decodeMembers] at h
    cases hf : findField k with
    | none =>
      rw [hf] at h
      dsimp only at h
      exact ih st st1 h hz
    | some g =>
      rw [hf] at h
      dsimp only at h
      cases hd : decodeField g v st with
      | error e => rw [hd] at h; cases h
      | ok st2 =>
        rw [hd] at h
        dsimp only at h
        exact ih st2 st1 h (decodeField_range g v st st2 hd hz)

/-- Shape of a successful binding: the body is `null` and the struct is
untouched, or it is an object whose members decode without a saved error. -/
theorem ShouldBindJSON_ok (body : ReqBody) (s : Student Time)
    (h : ShouldBindJSON body = .ok s) :
    (body = .json .null ∧ s = Student.zero) ∨
    ∃ ms st, body = .json (.obj ms) ∧
      decodeMembers ms { s := Student.zero, saved := none } = .ok st ∧ st.s = s := by
  cases body with
  | malformed e => simp [ShouldBindJSON] at h
  | json v =>
    cases v with
    | null =>
      simp only [ShouldBindJSON] at h
      injection h with h
      exact Or.inl ⟨rfl, h.symm⟩
    | obj ms =>
      right
      simp only [ShouldBindJSON] at h
      cases hd : decodeMembers ms ({ s := Student.zero, saved := none } : DecState Time) with
      | error e => rw [hd] at h; cases h
      | ok st =>
        rw [hd] at h
        cases hs : st.saved with
        | some e => simp [hs] at h
        | none =>
          simp only [hs] at h
          injection h with h
          exact ⟨ms, st, rfl, hd, h⟩
    | bool b => simp [ShouldBindJSON] at h
    | int n => simp [ShouldBindJSON] at h
    | frac l => simp [ShouldBindJSON] at h
    | str x => simp [ShouldBindJSON] at h
    | arr xs => simp [ShouldBindJSON] at h

/-- A bound id is within the range of `int`. -/
theorem ShouldBindJSON_range (body : ReqBody) (s : Student Time)
    (h : ShouldBindJSON body = .ok s) :
    -(2 : Int) ^ 63 ≤ s.Id ∧ s.Id < (2 : Int) ^ 63 := by
  have h0 : -(2 : Int) ^ 63 ≤ (Student.zero : Student Time).Id ∧
      (Student.zero : Student Time).Id < (2 : Int) ^ 63 := by
    simp [Student.zero]
  rcases ShouldBindJSON_ok body s h with ⟨_, hs⟩ | ⟨ms, st, _, hd, hs⟩
  · rw [hs]; exact h0
  · rw [← hs]
    exact decodeMembers_range ms _ st hd h0

/-- A field that no member of a bound object names holds its zero value. -/
theorem ShouldBindJSON_missing (ms : List (String × JVal)) (s : Student Time) (f : Field)
    (h : ShouldBindJSON (.json (.obj ms)) = .ok s)
    (hms : ∀ m ∈ ms, findField m.1 ≠ some f) : s.zeroAt f := by
  rcases ShouldBindJSON_ok _ s h with ⟨hb, _⟩ | ⟨ms1, st, hb, hd, hs⟩
  · cases hb
  · injection hb with hb
    injection hb with hb
    subst hb
    rw [← hs]
    exact decodeMembers_zeroAt f ms _ st hms hd (zero_zeroAt f)

end binding

/-! ## `Atoi` reads back the decimal text -/

theorem digitVal_ofNat (d : Nat) (h : d < 10) : digitVal (Char.ofNat (48 + d)) = some d := by
  interval_cases d <;> decide

theorem ofNat_digit_ne_sign (d : Nat) (h : d < 10) :
    Char.ofNat (48 + d) ≠ '-' ∧ Char.ofNat (48 + d) ≠ '+' := by
  interval_cases d <;> decide

/-- Reading the digits of `n` in front of `rest` continues with `n`. -/
theorem parseDigits_natDigits (n : Nat) :
    ∀ rest : List Char, parseDigits (natDigits n ++ rest) 0 = parseDigits rest n := by
  induction n using Nat.strong_induction_on with
  | _ n ih =>
    intro rest
    rw [natDigits]
    split
    · next h =>
      simp [parseDigits, digitVal_ofNat n h]
    · next h =>
      rw [List.append_assoc, ih (n / 10) (by omega)]
      simp only [List.singleton_append, parseDigits, digitVal_ofNat (n % 10) (Nat.mod_lt _ (by omega))]
      congr 1
      omega

/-- The digits of a number start with a character that is no sign. -/
theorem natDigits_head (n : Nat) :
    ∃ c cs, natDigits n = c :: cs ∧ c ≠ '-' ∧ c ≠ '+' := by
  induction n using Nat.strong_induction_on with
  | _ n ih =>
    rw [natDigits]
    split
    · next h =>
      exact ⟨_, [], rfl, ofNat_digit_ne_sign n h⟩
    · next h =>
      obtain ⟨c, cs, hc, h1, h2⟩ := ih (n / 10) (by omega)
      exact ⟨c, cs ++ [Char.ofNat (48 + n % 10)], by rw [hc]; rfl, h1, h2⟩

/-- `Atoi` of the decimal text of an `int` is that `int`. -/
theorem Atoi_decimalText (k : Int) (hlo : -(2 : Int) ^ 63 ≤ k) (hhi : k < (2 : Int) ^ 63) :
    Atoi (decimalText k) = some k := by
  obtain ⟨c, cs, hc, h1, h2⟩ := natDigits_head k.natAbs
  have hp : parseDigits (c :: cs) 0 = some k.natAbs := by
    have := parseDigits_natDigits k.natAbs []
    rw [List.append_nil, hc] at this
    rw [this]; rfl
  by_cases hk : k < 0
  · have hn : (k.natAbs : Int) = -k := by omega
    have hb : k.natAbs ≤ 2 ^ 63 := by
      have : ((k.natAbs : Nat) : Int) ≤ ((2 ^ 63 : Nat) : Int) := by
        rw [hn]; push_cast; omega
      exact_mod_cast this
    simp [Atoi, decimalText, hk, hc, hp]
    exact ⟨by omega, by rw [abs_of_neg hk, neg_neg]⟩
  · have hn : (k.natAbs : Int) = k := by omega
    have hb : k.natAbs < 2 ^ 63 := by
      have : ((k.natAbs : Nat) : Int) < ((2 ^ 63 : Nat) : Int) := by
        rw [hn]; push_cast; omega
      exact_mod_cast this
    simp [Atoi, decimalText, hk, hc, hp, h1, h2]
    exact ⟨by omega, by omega⟩

/-! ## The handlers on a healthy store -/

section handlers
variable {Time : Type}

/-- Every statement sent through the handle is recorded, whatever its outcome. -/
theorem run_calls (pg : Engine) (db : DB Time) (q : Stmt Time) :
    (db.run pg q).2.calls = db.calls ++ [q] := by
  unfold DB.run
  cases db.fault with
  | some e => rfl
  | none =>
    dsimp only
    cases q.eval pg db.rows with
    | error e => rfl
    | ok v => rfl

/-- The row the `UPDATE` leaves in place of a row of id `k`. -/
theorem assign_eq_replaced (r : Row Time) (k : Int) (s : Student Time) (h : r.id = some k) :
    r.assign s.Name s.Email s.Address s.BirthDate s.Gender = Row.replaced k s := by
  simp [Row.assign, Row.replaced, h]

/-- On a healthy store whose id column reads the path segment as `k`,
`updateStudent` overwrites the rows of id `k` and echoes the body. -/
theorem updateStudent_healthy [TimeLib Time] (pg : Engine) (db : DB Time) (id : String)
    (body : ReqBody) (s : Student Time) (k : Int)
    (hbody : ShouldBindJSON body = .ok s) (hh : db.healthy) (hk : pg.intIn id = .ok k) :
    updateStudent pg db id body =
      (cJSON StatusOK (.student s),
        (db.record (.update id s.Name s.Email s.Address s.BirthDate s.Gender)).withRows
          (db.rows.map (fun r =>
            if r.id = some k then r.assign s.Name s.Email s.Address s.BirthDate s.Gender
            else r))) := by
  simp [updateStudent, hbody, DB.Exec, run_of_healthy pg db _ hh, Stmt.eval, hk]

/-- On a healthy store whose id column reads the path segment as `k`,
`deleteStudent` removes the rows of id `k` and answers 204 without a body. -/
theorem deleteStudent_healthy (pg : Engine) (db : DB Time) (id : String) (k : Int)
    (hh : db.healthy) (hk : pg.intIn id = .ok k) :
    deleteStudent pg db id =
      (cStatus StatusNoContent,
        (db.record (.delete id)).withRows (db.rows.filter (fun r => ¬ r.id = some k))) := by
  simp [deleteStudent, DB.Exec, run_of_healthy pg db _ hh, Stmt.eval, hk]

/-- Removing the rows of id `k` twice is removing them once. -/
theorem filter_ne_idem (rows : List (Row Time)) (k : Int) :
    (rows.filter (fun r => ¬ r.id = some k)).filter (fun r => ¬ r.id = some k) =
      rows.filter (fun r => ¬ r.id = some k) := by
  rw [List.filter_filter]
  congr 1
  funext r
  simp

/-- After the rows of id `k` are removed, the rows of another id `j` are the
same as before. -/
theorem filter_eq_of_filter_ne (rows : List (Row Time)) (k j : Int) (h : j ≠ k) :
    (rows.filter (fun r => ¬ r.id = some k)).filter (fun r => r.id = some j) =
      rows.filter (fun r => r.id = some j) := by
  rw [List.filter_filter]
  congr 1
  funext r
  by_cases hj : r.id = some j
  · simp [hj, h]
  · simp [hj]

/-- After the rows of id `k` are removed, no row of id `k` is left. -/
theorem filter_eq_of_filter_self (rows : List (Row Time)) (k : Int) :
    (rows.filter (fun r => ¬ r.id = some k)).filter (fun r => r.id = some k) = [] := by
  rw [List.filter_eq_nil_iff]
  intro r hr
  have := (List.mem_filter.mp hr).2
  simpa using this

/-- Repeated deletes on a healthy store: every response is 204 without a body. -/
theorem deleteRepeat_responses (pg : Engine) (id : String) (k : Int)
    (hk : pg.intIn id = .ok k) (n : Nat) :
    ∀ db : DB Time, db.healthy →
      (deleteRepeat pg id n db).1 = List.replicate n (cStatus StatusNoContent) := by
  induction n with
  | zero => intro db _; rfl
  | succ n ih =>
    intro db hh
    have hfirst := deleteStudent_healthy pg db id k hh hk
    simp only [deleteRepeat, hfirst, List.replicate_succ]
    rw [ih _ (by simpa using hh)]

/-- Repeated deletes on a healthy store: after one or more of them the table
is the table after the first. -/
theorem deleteRepeat_rows (pg : Engine) (id : String) (k : Int)
    (hk : pg.intIn id = .ok k) (n : Nat) :
    ∀ db : DB Time, db.healthy →
      (deleteRepeat pg id (n + 1) db).2.rows = db.rows.filter (fun r => ¬ r.id = some k) := by
  induction n with
  | zero =>
    intro db hh
    simp [deleteRepeat, deleteStudent_healthy pg db id k hh hk]
  | succ n ih =>
    intro db hh
    have hfirst := deleteStudent_healthy pg db id k hh hk
    rw [deleteRepeat]
    simp only [hfirst]
    rw [ih _ (by simpa using hh)]
    simp only [rows_withRows]
    exact filter_ne_idem db.rows k

end handlers

/-! ## The properties -/

/-- Claim C1: create followed by get-by-id round-trips. For a body that binds
to `s`, on a healthy store without a row of id `s.Id`, `addStudent` answers 201
with `s`, and `getStudentByID` on the store afterwards answers 200 with `s`
when its path segment is the decimal text of `s.Id`, or any other text `Atoi`
reads as `s.Id`. -/
theorem create_then_get_roundtrip {Time : Type} [TimeLib Time] (pg : Engine) (db : DB Time)
    (body : ReqBody) (s : Student Time)
    (hbody : ShouldBindJSON body = .ok s) (hh : db.healthy)
    (hfresh : ∀ r ∈ db.rows, r.id ≠ some s.Id) :
    (addStudent pg db body).1 = cJSON StatusCreated (.student s) ∧
    (getStudentByID pg (addStudent pg db body).2 (decimalText s.Id)).1 =
      cJSON StatusOK (.student s) ∧
    ∀ idStr, Atoi idStr = some s.Id →
      (getStudentByID pg (addStudent pg db body).2 idStr).1 = cJSON StatusOK (.student s) := by
  have hget : ∀ idStr, Atoi idStr = some s.Id →
      (getStudentByID pg (addStudent pg db body).2 idStr).1 = cJSON StatusOK (.student s) := by
    intro idStr hid
    rw [addStudent_fresh pg db body s hbody hh hfresh,
      getStudentByID_healthy pg _ idStr s.Id hid (by simpa using hh)]
    simp [List.filter_append, filter_id_eq_nil db.rows s.Id hfresh, Row.ofStudent, Scan]
  have hr := ShouldBindJSON_range body s hbody
  refine ⟨?_, hget _ (Atoi_decimalText s.Id hr.1 hr.2), hget⟩
  rw [addStudent_fresh pg db body s hbody hh hfresh]

/-- Witness for C1: the scenario's `POST` on the empty table, then `GET /students/1`. -/
theorem create_then_get_roundtrip_witness :
    decimalText ann.Id = "1" ∧
    (addStudent samplePg emptyDb annBody).1 = cJSON StatusCreated (.student ann) ∧
    (getStudentByID samplePg (addStudent samplePg emptyDb annBody).2 "1").1 =
      cJSON StatusOK (.student ann) := by
  have h := create_then_get_roundtrip samplePg emptyDb annBody ann rfl rfl
    (by intro r hr; cases hr)
  have ht : decimalText ann.Id = "1" := by
    simp [decimalText, ann, natDigits]
  exact ⟨ht, h.1, ht ▸ h.2.1⟩

/-- Claim C2, amended: update is a full replace keyed by the path id. For a
healthy store holding a row of id `k`, a path segment the id column reads as
`k` and a body that binds to `s`, `updateStudent` answers 200; afterwards the
table has as many rows as before, every place that held a row of id `k` holds
the row with id `k` and the five other columns of `s` (the id of the body is not
written), every other row is where and what it was, and a row of id `k` is
still there. -/
theorem updateStudent_full_replace {Time : Type} [TimeLib Time] (pg : Engine) (db : DB Time)
    (id : String) (body : ReqBody) (s : Student Time) (k : Int)
    (hbody : ShouldBindJSON body = .ok s) (hh : db.healthy) (hk : pg.intIn id = .ok k)
    (hrow : ∃ r ∈ db.rows, r.id = some k) :
    (updateStudent pg db id body).1 = cJSON StatusOK (.student s) ∧
    (updateStudent pg db id body).2.rows.length = db.rows.length ∧
    (∀ (i : Nat) (r : Row Time), db.rows[i]? = some r → r.id = some k →
      (updateStudent pg db id body).2.rows[i]? = some (Row.replaced k s)) ∧
    (∀ (i : Nat) (r : Row Time), db.rows[i]? = some r → r.id ≠ some k →
      (updateStudent pg db id body).2.rows[i]? = some r) ∧
    (∃ r ∈ (updateStudent pg db id body).2.rows, r = Row.replaced k s) := by
  rw [updateStudent_healthy pg db id body s k hbody hh hk]
  refine ⟨rfl, by simp, ?_, ?_, ?_⟩
  · intro i r hi hr
    simp [hi, hr, assign_eq_replaced r k s hr]
  · intro i r hi hr
    simp [hi, hr]
  · obtain ⟨r, hmem, hr⟩ := hrow
    refine ⟨Row.replaced k s, ?_, rfl⟩
    simp only [rows_withRows, List.mem_map]
    exact ⟨r, hmem, by simp [hr, assign_eq_replaced r k s hr]⟩

/-- Witness for C2: `PUT /students/1` with a body of id 9 on the store of ids 1
and 2. -/
theorem updateStudent_full_replace_witness :
    (updateStudent samplePg twoDb "1" annaBody).1 = cJSON StatusOK (.student anna) ∧
    (updateStudent samplePg twoDb "1" annaBody).2.rows =
      [Row.replaced 1 anna, Row.ofStudent bea] := by
  have h := updateStudent_full_replace samplePg twoDb "1" annaBody anna 1 rfl rfl rfl
    ⟨Row.ofStudent ann, by simp [twoDb], rfl⟩
  exact ⟨h.1, rfl⟩

/-- Counterexample to C2 as stated (every store): behind a lost connection the
store holds a row of id 1, and `PUT /students/1` answers 500 and writes nothing. -/
theorem updateStudent_full_replace_counterexample :
    (∃ r ∈ downDb.rows, r.id = some 1) ∧
    (ShouldBindJSON annaBody : Except String (Student Stamp)) = .ok anna ∧
    (updateStudent samplePg downDb "1" annaBody).1 =
      cJSON StatusInternalServerError (.H "driver: bad connection") ∧
    (updateStudent samplePg downDb "1" annaBody).1.status ≠ StatusOK ∧
    (updateStudent samplePg downDb "1" annaBody).2.rows = downDb.rows :=
  ⟨⟨Row.ofStudent ann, by simp [downDb], rfl⟩, rfl, rfl, by decide, rfl⟩

/-- Claim C3: for a path segment `Atoi` rejects, `getStudentByID` answers 400
with message "Invalid ID", issues no statement, and leaves the store as it
was. -/
theorem getStudentByID_invalid_id {Time : Type} (pg : Engine) (db : DB Time) (idStr : String)
    (h : Atoi idStr = none) :
    (getStudentByID pg db idStr).1 = cJSON StatusBadRequest (.H "Invalid ID") ∧
    (getStudentByID pg db idStr).2.calls = db.calls ∧
    (getStudentByID pg db idStr).2 = db := by
  simp [getStudentByID, h]

/-- Witness for C3: `GET /students/abc`. -/
theorem getStudentByID_invalid_id_witness :
    Atoi "abc" = none ∧
    (getStudentByID samplePg twoDb "abc").1 = cJSON StatusBadRequest (.H "Invalid ID") ∧
    (getStudentByID samplePg twoDb "abc").2.calls = [] :=
  ⟨by decide, (getStudentByID_invalid_id samplePg twoDb "abc" (by decide)).1,
    (getStudentByID_invalid_id samplePg twoDb "abc" (by decide)).2.1⟩

/-- Claim C4: for a path segment `Atoi` reads as `k`, on a healthy store without
a row of id `k`, `getStudentByID` answers 404 with message "Student not found",
and its status is not 500. -/
theorem getStudentByID_missing_is_404 {Time : Type} (pg : Engine) (db : DB Time)
    (idStr : String) (k : Int) (hid : Atoi idStr = some k) (hh : db.healthy)
    (hno : ∀ r ∈ db.rows, r.id ≠ some k) :
    (getStudentByID pg db idStr).1 = cJSON StatusNotFound (.H "Student not found") ∧
    (getStudentByID pg db idStr).1.status ≠ StatusInternalServerError := by
  rw [getStudentByID_healthy pg db idStr k hid hh, filter_id_eq_nil db.rows k hno]
  exact ⟨rfl, by simp [cJSON, StatusNotFound, StatusInternalServerError]⟩

/-- Witness for C4: `GET /students/3` on the store of ids 1 and 2. -/
theorem getStudentByID_missing_is_404_witness :
    (getStudentByID samplePg twoDb "3").1 = cJSON StatusNotFound (.H "Student not found") ∧
    (getStudentByID samplePg twoDb "3").1.status ≠ StatusInternalServerError :=
  getStudentByID_missing_is_404 samplePg twoDb "3" 3 (by decide) rfl (by decide)

/-- Claim C5, evaluated on the code: on a healthy store with an empty table
`getAllStudents` answers 200 with the nil slice `students`, which is encoded
as JSON `null`, not as the empty array; with a row in the table the same
handler writes a JSON array. -/
theorem getAllStudents_empty_table_null {Time : Type} [TimeLib Time] (pg : Engine)
    (calls : List (Stmt Time)) :
    (getAllStudents pg { rows := [], fault := none, calls := calls }).1 =
      cJSON StatusOK (.students none) ∧
    (getAllStudents pg { rows := [], fault := none, calls := calls }).1.body.toJSON =
      some JVal.null ∧
    (getAllStudents pg { rows := [], fault := none, calls := calls }).1.body.toJSON ≠
      some (JVal.arr []) ∧
    (∀ s : Student Time,
      (getAllStudents pg { rows := [Row.ofStudent s], fault := none, calls := calls }).1.body.toJSON =
        some (JVal.arr [s.toJSON])) := by
  refine ⟨rfl, rfl, ?_, ?_⟩
  · intro h
    cases h
  · intro s
    cases s
    rfl

/-- Claim C6, amended: `addStudent` answers 400 with the binding error, issues
no statement and leaves the store as it was whenever the body is malformed
JSON or otherwise fails to bind; a body that binds is never answered 400 and
its `INSERT` is issued; and a JSON object that binds although it names no
member for field `f` yields the zero value in `f`. -/
theorem addStudent_bad_request {Time : Type} [TimeLib Time] (pg : Engine) (db : DB Time)
    (body : ReqBody) :
    (∀ e, body = .malformed e → addStudent pg db body = (cJSON StatusBadRequest (.H e), db)) ∧
    (∀ e, (ShouldBindJSON body : Except String (Student Time)) = .error e →
      addStudent pg db body = (cJSON StatusBadRequest (.H e), db)) ∧
    (∀ s : Student Time, ShouldBindJSON body = .ok s →
      (addStudent pg db body).1.status ≠ StatusBadRequest ∧
      (addStudent pg db body).2.calls =
        db.calls ++ [.insert s.Id s.Name s.Email s.Address s.BirthDate s.Gender]) ∧
    (∀ (ms : List (String × JVal)) (s : Student Time) (f : Field),
      body = .json (.obj ms) → ShouldBindJSON body = .ok s →
      (∀ m ∈ ms, findField m.1 ≠ some f) → s.zeroAt f) := by
  refine ⟨?_, ?_, ?_, ?_⟩
  · intro e hb
    subst hb
    simp [addStudent, ShouldBindJSON]
  · intro e hb
    simp [addStudent, hb]
  · intro s hb
    simp only [addStudent, hb, DB.Exec]
    have hc := run_calls pg db (.insert s.Id s.Name s.Email s.Address s.BirthDate s.Gender)
    rcases hrun : db.run pg (.insert s.Id s.Name s.Email s.Address s.BirthDate s.Gender) with
      ⟨res, db1⟩
    rw [hrun] at hc
    cases res with
    | error e => exact ⟨by simp [cJSON, StatusInternalServerError, StatusBadRequest], hc⟩
    | ok v => exact ⟨by simp [cJSON, StatusCreated, StatusBadRequest], hc⟩
  · intro ms s f hb hs hms
    subst hb
    exact ShouldBindJSON_missing ms s f hs hms

/-- Witness for C6: a body with a syntax error is answered 400 without an
`INSERT`; the body naming only `id` and `name` binds with `email` at zero. -/
theorem addStudent_bad_request_witness :
    addStudent samplePg twoDb (.malformed "unexpected EOF") =
      (cJSON StatusBadRequest (.H "unexpected EOF"), twoDb) ∧
    bob.zeroAt .email :=
  ⟨(addStudent_bad_request samplePg twoDb (.malformed "unexpected EOF")).1 _ rfl,
    (addStudent_bad_request samplePg twoDb partialBody).2.2.2 _ bob .email rfl rfl
      (by decide)⟩

/-- Counterexample to C6 as stated: the body `{"id":7,"name":"Bob"}` lacks
`email`, `address`, `birth_date` and `gender`, yet `addStudent` issues the
`INSERT` and answers 201 with the missing fields at zero. -/
theorem addStudent_missing_fields_counterexample :
    (∀ f ∈ [Field.email, Field.address, Field.birth_date, Field.gender],
      ∀ m ∈ [("id", JVal.int 7), ("name", JVal.str "Bob")], findField m.1 ≠ some f) ∧
    (addStudent samplePg emptyDb partialBody).1 = cJSON StatusCreated (.student bob) ∧
    (addStudent samplePg emptyDb partialBody).1.status ≠ StatusBadRequest ∧
    (addStudent samplePg emptyDb partialBody).2.calls =
      [.insert 7 "Bob" "" "" TimeLib.zero ""] ∧
    (addStudent samplePg emptyDb partialBody).2.rows = [Row.ofStudent bob] :=
  ⟨by decide, rfl, by decide, rfl, rfl⟩

/-- Claim C7: for a path segment the id column reads as `k`, a healthy store
without a row of id `k` and a body that binds to `s`, `updateStudent` answers
200 with `s` as bound, its own id included, and the table is what it was. -/
theorem updateStudent_missing_id_noop {Time : Type} [TimeLib Time] (pg : Engine)
    (db : DB Time) (id : String) (body : ReqBody) (s : Student Time) (k : Int)
    (hbody : ShouldBindJSON body = .ok s) (hh : db.healthy) (hk : pg.intIn id = .ok k)
    (hno : ∀ r ∈ db.rows, r.id ≠ some k) :
    (updateStudent pg db id body).1 = cJSON StatusOK (.student s) ∧
    (updateStudent pg db id body).2.rows = db.rows := by
  rw [updateStudent_healthy pg db id body s k hbody hh hk]
  refine ⟨rfl, ?_⟩
  simp only [rows_withRows]
  have hsame : db.rows.map (fun r =>
      if r.id = some k then r.assign s.Name s.Email s.Address s.BirthDate s.Gender else r) =
      db.rows.map (fun r => r) :=
    List.map_congr_left (fun r hr => by simp [hno r hr])
  rw [hsame, List.map_id']

/-- Witness for C7: `PUT /students/3` on the store of ids 1 and 2. -/
theorem updateStudent_missing_id_noop_witness :
    (updateStudent samplePg twoDb "3" annaBody).1 = cJSON StatusOK (.student anna) ∧
    (updateStudent samplePg twoDb "3" annaBody).2.rows =
      [Row.ofStudent ann, Row.ofStudent bea] :=
  updateStudent_missing_id_noop samplePg twoDb "3" annaBody anna 3 rfl rfl rfl (by decide)

/-- Claim C8: delete is idempotent. For a path segment the id column reads as
`k` and a healthy store, with or without a row of id `k`: `deleteStudent`
answers 204 without a body, so does a second delete, `n` successive deletes
answer 204 each, and the table after the second delete, as after any further
one, is the table after the first. -/
theorem deleteStudent_idempotent {Time : Type} (pg : Engine) (db : DB Time) (id : String)
    (k : Int) (hh : db.healthy) (hk : pg.intIn id = .ok k) :
    (deleteStudent pg db id).1 = cStatus StatusNoContent ∧
    (deleteStudent pg (deleteStudent pg db id).2 id).1 = cStatus StatusNoContent ∧
    (∀ n, (deleteRepeat pg id n db).1 = List.replicate n (cStatus StatusNoContent)) ∧
    (deleteStudent pg (deleteStudent pg db id).2 id).2.rows = (deleteStudent pg db id).2.rows ∧
    (∀ n, (deleteRepeat pg id (n + 1) db).2.rows = (deleteStudent pg db id).2.rows) := by
  have h1 := deleteStudent_healthy pg db id k hh hk
  have hh1 : (deleteStudent pg db id).2.healthy := by rw [h1]; simpa using hh
  have h2 := deleteStudent_healthy pg (deleteStudent pg db id).2 id k hh1 hk
  refine ⟨by rw [h1], by rw [h2], fun n => deleteRepeat_responses pg id k hk n db hh, ?_, ?_⟩
  · rw [h2]
    simp only [rows_withRows, rows_record]
    rw [h1]
    simp only [rows_withRows]
    exact filter_ne_idem db.rows k
  · intro n
    rw [deleteRepeat_rows pg id k hk n db hh, h1]
    rfl

/-- Witness for C8: `DELETE /students/1` three times on the store of ids 1 and
2, and `DELETE /students/3`, an id no row has. -/
theorem deleteStudent_idempotent_witness :
    (deleteRepeat samplePg "1" 3 twoDb).1 =
      [cStatus StatusNoContent, cStatus StatusNoContent, cStatus StatusNoContent] ∧
    (deleteStudent samplePg (deleteStudent samplePg twoDb "1").2 "1").2.rows =
      [Row.ofStudent bea] ∧
    (deleteStudent samplePg twoDb "3").1 = cStatus StatusNoContent :=
  ⟨(deleteStudent_idempotent samplePg twoDb "1" 1 rfl rfl).2.2.1 3,
    (deleteStudent_idempotent samplePg twoDb "1" 1 rfl rfl).2.2.2.1.trans rfl,
    (deleteStudent_idempotent samplePg twoDb "3" 3 rfl rfl).1⟩

/-- Claim C9: delete removes the record for get. For a healthy store holding a
row of id `k` and a path segment that both `Atoi` and the id column read as
`k`: `deleteStudent` answers 204 and the table loses rows; `getStudentByID`
with the same segment then answers 404; and for every segment read as another
id, `getStudentByID` answers after the delete what it answered before. -/
theorem delete_then_get_not_found {Time : Type} (pg : Engine) (db : DB Time) (id : String)
    (k : Int) (hh : db.healthy) (hk : pg.intIn id = .ok k) (hid : Atoi id = some k)
    (hrow : ∃ r ∈ db.rows, r.id = some k) :
    (deleteStudent pg db id).1 = cStatus StatusNoContent ∧
    (deleteStudent pg db id).2.rows.length < db.rows.length ∧
    (getStudentByID pg (deleteStudent pg db id).2 id).1 =
      cJSON StatusNotFound (.H "Student not found") ∧
    (∀ (other : String) (j : Int), Atoi other = some j → j ≠ k →
      (getStudentByID pg (deleteStudent pg db id).2 other).1 =
        (getStudentByID pg db other).1) := by
  have h1 := deleteStudent_healthy pg db id k hh hk
  have hh1 : (deleteStudent pg db id).2.healthy := by rw [h1]; simpa using hh
  refine ⟨by rw [h1], ?_, ?_, ?_⟩
  · rw [h1]
    simp only [rows_withRows]
    rw [List.length_filter_lt_length_iff_exists]
    obtain ⟨r, hmem, hr⟩ := hrow
    exact ⟨r, hmem, by simp [hr]⟩
  · rw [getStudentByID_healthy pg _ id k hid hh1, h1]
    simp only [rows_withRows]
    rw [filter_eq_of_filter_self]
  · intro other j hj hne
    rw [getStudentByID_healthy pg _ other j hj hh1, getStudentByID_healthy pg db other j hj hh,
      h1]
    simp only [rows_withRows]
    rw [filter_eq_of_filter_ne db.rows k j hne]

/-- Witness for C9: the scenario of the specification, `POST` of id 1 answered
201, `GET /students/1` answered 200, `DELETE /students/1` answered 204,
`GET /students/1` answered 404; and on the store of ids 1 and 2 the record of
id 2 is still returned after `DELETE /students/1`. -/
theorem delete_then_get_not_found_witness :
    (addStudent samplePg emptyDb annBody).1 = cJSON StatusCreated (.student ann) ∧
    (getStudentByID samplePg (addStudent samplePg emptyDb annBody).2 "1").1 =
      cJSON StatusOK (.student ann) ∧
    (deleteStudent samplePg (addStudent samplePg emptyDb annBody).2 "1").1 =
      cStatus StatusNoContent ∧
    (getStudentByID samplePg
        (deleteStudent samplePg (addStudent samplePg emptyDb annBody).2 "1").2 "1").1 =
      cJSON StatusNotFound (.H "Student not found") ∧
    (getStudentByID samplePg (deleteStudent samplePg twoDb "1").2 "2").1 =
      cJSON StatusOK (.student bea) :=
  have h := delete_then_get_not_found samplePg (addStudent samplePg emptyDb annBody).2 "1" 1
    rfl rfl (by decide) ⟨Row.ofStudent ann, by decide, rfl⟩
  have h2 := delete_then_get_not_found samplePg twoDb "1" 1
    rfl rfl (by decide) ⟨Row.ofStudent ann, by decide, rfl⟩
  ⟨rfl, rfl, h.1, h.2.2.1, (h2.2.2.2 "2" 2 (by decide) (by decide)).trans rfl⟩

/-- Claim C10, amended: for the four handlers `getAllStudents`, `addStudent`,
`updateStudent` and `deleteStudent`, when the statement the handler issues
fails with error `e`, the handler has issued exactly that statement and
answers 500 with `e` as the error message. -/
theorem storage_error_is_500 {Time : Type} [TimeLib Time] (pg : Engine) (db : DB Time)
    (req : Request) (q : Stmt Time) (e : String)
    (hreq : ∀ id, req ≠ .get id) (hq : storageCall req = some q)
    (he : (db.run pg q).1 = .error e) :
    (handle pg db req).2.calls = db.calls ++ [q] ∧
    (handle pg db req).1 = cJSON StatusInternalServerError (.H e) := by
  have hc := run_calls pg db q
  rcases hrun : db.run pg q with ⟨res, db1⟩
  rw [hrun] at hc he
  simp only at he hc
  subst he
  cases req with
  | list =>
    simp only [storageCall, Option.some.injEq] at hq
    subst hq
    simp [handle, getAllStudents, DB.Query, hrun, hc]
  | get id => exact absurd rfl (hreq id)
  | add body =>
    simp only [storageCall] at hq
    cases hb : (ShouldBindJSON body : Except String (Student Time)) with
    | error e1 => rw [hb] at hq; cases hq
    | ok s =>
      rw [hb] at hq
      simp only [Option.some.injEq] at hq
      subst hq
      simp [handle, addStudent, hb, DB.Exec, hrun, hc]
  | update id body =>
    simp only [storageCall] at hq
    cases hb : (ShouldBindJSON body : Except String (Student Time)) with
    | error e1 => rw [hb] at hq; cases hq
    | ok s =>
      rw [hb] at hq
      simp only [Option.some.injEq] at hq
      subst hq
      simp [handle, updateStudent, hb, DB.Exec, hrun, hc]
  | delete id =>
    simp only [storageCall, Option.some.injEq] at hq
    subst hq
    simp [handle, deleteStudent, DB.Exec, hrun, hc]

/-- Witness for C10: behind a lost connection `DELETE /students/1` and
`GET /students` answer 500 with the driver's error text; on the healthy store
of ids 1 and 2 a `POST` of id 1 answers 500 with the constraint violation, and
`PUT /students/abc` answers 500 with the id column's input error. -/
theorem storage_error_is_500_witness :
    (deleteStudent samplePg downDb "1").1 =
      cJSON StatusInternalServerError (.H "driver: bad connection") ∧
    (getAllStudents samplePg downDb).1 =
      cJSON StatusInternalServerError (.H "driver: bad connection") ∧
    (addStudent samplePg twoDb annBody).1 =
      cJSON StatusInternalServerError (.H duplicateKey) ∧
    (updateStudent samplePg twoDb "abc" annaBody).1 =
      cJSON StatusInternalServerError
        (.H "pq: invalid input syntax for type integer: \"abc\"") :=
  ⟨(storage_error_is_500 samplePg downDb (.delete "1") (.delete "1") "driver: bad connection"
      (by intro id h; cases h) rfl rfl).2,
    (storage_error_is_500 samplePg downDb .list .selectAll "driver: bad connection"
      (by intro id h; cases h) rfl rfl).2,
    (storage_error_is_500 samplePg twoDb (.add annBody)
      (.insert 1 "Ann" "a@x.com" "1 Main St" (Stamp.mk "2000-01-01T00:00:00Z") "F") duplicateKey
      (by intro id h; cases h) (by rfl) (by rfl)).2,
    (storage_error_is_500 samplePg twoDb (.update "abc" annaBody)
      (.update "abc" "Anna" "anna@x.com" "3 High St" (Stamp.mk "2000-01-02T00:00:00Z") "F")
      "pq: invalid input syntax for type integer: \"abc\""
      (by intro id h; cases h) (by rfl) (by rfl)).2⟩

/-- Counterexample to C10 as stated (all five handlers): behind a lost
connection the `SELECT` of `GET /students/1` fails with the driver's error, and
`getStudentByID` answers 404 "Student not found", not 500 with that error. -/
theorem getStudentByID_storage_error_counterexample :
    (storageCall (.get "1") : Option (Stmt Stamp)) = some (.selectById 1) ∧
    (downDb.run samplePg (.selectById 1)).1 = .error "driver: bad connection" ∧
    (handle samplePg downDb (.get "1")).1 = cJSON StatusNotFound (.H "Student not found") ∧
    (handle samplePg downDb (.get "1")).1 ≠
      cJSON StatusInternalServerError (.H "driver: bad connection") :=
  ⟨rfl, rfl, rfl, by decide⟩

end StudentApi
